import Mathlib

/-!
Verification development for the phone-call-agent repository.

Shallow embedding of the parts of the code the claims are about:
  * the reminder store over SQLite (`database.py`): reminder rows and the
    row-level update operations, `get_due_reminders`;
  * the reminder scheduler (`reminder_checker.py`): call-ended handling and
    next-occurrence scheduling, with a calendar model reflecting Python's
    `datetime.replace` validation and `timedelta` arithmetic;
  * the Twilio media-stream handler (`twilio_media_streams.py`): the
    reconnection audio buffer, the call-status webhook signal, and the audio
    transcoding pipeline (CPython `audioop.ratecv` / `lin2ulaw` / `ulaw2lin`);
  * the Gemini live client (`gemini_live_client.py`): function-call dispatch
    and the disconnect state transition;
  * the reminder agent's list action (`sub_agents_elderly.py`,
    `translations.py`).

Dates/times are modelled structurally; the TEXT columns of the store hold
ISO-format strings, which `datetime.fromisoformat` / `isoformat` round-trip,
so reminder rows carry the structured value directly.
-/

/-! ## Calendar model (Python `datetime` semantics) -/

/-- Gregorian leap-year test, as used by Python's `calendar`/`datetime`. -/
def isLeapYear (y : Nat) : Bool :=
  y % 4 = 0 && (y % 100 ≠ 0 || y % 400 = 0)

/-- Number of days in a month (`datetime` day-range validation bound). -/
def daysInMonth (y m : Nat) : Nat :=
  if m = 2 then (if isLeapYear y then 29 else 28)
  else if m = 4 || m = 6 || m = 9 || m = 11 then 30
  else 31

/-- Day of week for a Gregorian date, 0 = Sunday, via Sakamoto's method.
Matches Python's `strftime('%A')` weekday up to naming. -/
def dayOfWeek (y m d : Nat) : Nat :=
  let t : List Nat := [0, 3, 2, 5, 0, 3, 5, 1, 4, 6, 2, 4]
  let y' := if m < 3 then y - 1 else y
  (y' + y' / 4 - y' / 100 + y' / 400 + t.getD (m - 1) 0 + d) % 7

/-- Lower-cased English weekday name: `current_time.strftime('%A').lower()`. -/
def weekdayName (y m d : Nat) : String :=
  match dayOfWeek y m d with
  | 0 => "sunday"
  | 1 => "monday"
  | 2 => "tuesday"
  | 3 => "wednesday"
  | 4 => "thursday"
  | 5 => "friday"
  | _ => "saturday"

/-- A Python naive `datetime` value (microseconds unused by this code path). -/
structure DateTime where
  year : Nat
  month : Nat
  day : Nat
  hour : Nat
  minute : Nat
  second : Nat
deriving DecidableEq, Repr

/-- Python `datetime` comparison: lexicographic on the components. -/
def dtLe (a b : DateTime) : Bool :=
  if a.year ≠ b.year then a.year < b.year
  else if a.month ≠ b.month then a.month < b.month
  else if a.day ≠ b.day then a.day < b.day
  else if a.hour ≠ b.hour then a.hour < b.hour
  else if a.minute ≠ b.minute then a.minute < b.minute
  else a.second ≤ b.second

/-- The `.date()` projection used by `get_due_reminders`'s same-day check. -/
def dtDate (t : DateTime) : Nat × Nat × Nat :=
  (t.year, t.month, t.day)

/-- Python `datetime.replace(year=, month=, day=)`: the resulting date is
validated by the `datetime` constructor and a `ValueError` is raised when the
day is out of range for the month (or a field is outside its bounds). -/
def dtReplaceYMD (t : DateTime) (y m d : Nat) : Except String DateTime :=
  if 1 ≤ y && y ≤ 9999 && 1 ≤ m && m ≤ 12 && 1 ≤ d && d ≤ daysInMonth y m then
    .ok { t with year := y, month := m, day := d }
  else
    .error "ValueError: day is out of range for month"

/-- Python `datetime.replace(day=)`, keeping year and month. -/
def dtReplaceDay (t : DateTime) (d : Nat) : Except String DateTime :=
  dtReplaceYMD t t.year t.month d

/-- Advance a calendar date by `k` days with month/year rollover; this is the
effect of Python's `datetime + timedelta` on the date part. -/
def addDays : Nat → Nat × Nat × Nat → Nat × Nat × Nat
  | 0, ymd => ymd
  | k + 1, (y, m, d) =>
      if d < daysInMonth y m then addDays k (y, m, d + 1)
      else if m < 12 then addDays k (y, m + 1, 1)
      else addDays k (y + 1, 1, 1)

/-- Python `t + timedelta(minutes=mins)`. -/
def addMinutes (t : DateTime) (mins : Nat) : DateTime :=
  let total := t.hour * 3600 + t.minute * 60 + t.second + mins * 60
  let carry := total / 86400
  let rem := total % 86400
  let ymd := addDays carry (t.year, t.month, t.day)
  { year := ymd.1, month := ymd.2.1, day := ymd.2.2,
    hour := rem / 3600, minute := rem % 3600 / 60, second := rem % 60 }

/-! ## Reconnection audio buffer (`twilio_media_streams.py` lines 44-47,
376-399): `if len(self.audio_buffer) < self.max_buffer_size:
self.audio_buffer.append(pcm_24k)`. -/

/-- `self.max_buffer_size = 50`. -/
def max_buffer_size : Nat := 50

/-- One enqueue of a decoded frame into the reconnection buffer: append only
while the buffer holds fewer than `max_buffer_size` frames. -/
def bufferAppend {α : Type} (buf : List α) (frame : α) : List α :=
  if buf.length < max_buffer_size then buf ++ [frame] else buf

/-- Enqueue a whole arrival sequence of frames, oldest first. -/
def bufferEnqueueAll {α : Type} (buf : List α) (frames : List α) : List α :=
  frames.foldl bufferAppend buf

/-! ## Reminder store (`database.py`) -/

/-- One row of the `reminders` table. `recurrence` and `days_of_week` are
nullable TEXT columns (`none` = SQL NULL); `active` is the INTEGER flag with
1 = true; `datetime` / `last_triggered` hold ISO strings, carried here as the
structured value. -/
structure Reminder where
  id : Nat
  title : String
  datetime : DateTime
  recurrence : Option String
  days_of_week : Option String
  active : Bool
  last_triggered : Option DateTime
deriving DecidableEq, Repr

/-- Python truthiness of a nullable TEXT field: NULL and the empty string are
falsy, any other string truthy (`if reminder['recurrence']:`). -/
def truthyStr : Option String → Bool
  | none => false
  | some s => !s.isEmpty

/-- Insertion step for ordering rows by the `datetime` column. -/
def insertByDatetime (r : Reminder) : List Reminder → List Reminder
  | [] => [r]
  | x :: xs =>
      if dtLe r.datetime x.datetime then r :: x :: xs
      else x :: insertByDatetime r xs

/-- Sort rows by the `datetime` column (the `ORDER BY datetime` of
`get_reminders`; ISO strings compare lexicographically, i.e. chronologically). -/
def sortByDatetime (rows : List Reminder) : List Reminder :=
  rows.foldr insertByDatetime []

/-- `Database.get_reminders(active_only=True)`: active rows ordered by
`datetime`. -/
def get_reminders (rows : List Reminder) : List Reminder :=
  sortByDatetime (rows.filter (fun r => r.active))

/-- Split a comma-separated `days_of_week` value into trimmed lower-case day
names: `[d.strip().lower() for d in reminder['days_of_week'].split(',')]`. -/
def splitCharAux (cur : List Char) : List Char → List (List Char)
  | [] => [cur.reverse]
  | c :: cs => if c = ',' then cur.reverse :: splitCharAux [] cs
               else splitCharAux (c :: cur) cs

/-- Strip space characters from both ends and lower-case ASCII letters. -/
def stripLower (cs : List Char) : List Char :=
  (((cs.dropWhile (fun c => c = ' ')).reverse.dropWhile
      (fun c => c = ' ')).reverse).map Char.toLower

/-- The configured weekday set of a `weekly` reminder, as compared against
`current_time.strftime('%A').lower()`. -/
def splitDays (s : String) : List String :=
  (splitCharAux [] s.data).map (fun cs => String.mk (stripLower cs))

/-- The per-row due test inside `Database.get_due_reminders`: scheduled time
passed; for a recurring reminder, not already triggered on today's date; for
a `weekly` reminder with a configured day set, today's weekday in the set. -/
def isDueReminder (r : Reminder) (current_time : DateTime) : Bool :=
  if dtLe r.datetime current_time then
    if truthyStr r.recurrence then
      let sameDay : Bool :=
        match r.last_triggered with
        | some lt => dtDate lt == dtDate current_time
        | none => false
      if sameDay then false
      else if r.recurrence = some "weekly" && truthyStr r.days_of_week then
        match r.days_of_week with
        | some ds =>
            (splitDays ds).contains
              (weekdayName current_time.year current_time.month current_time.day)
        | none => false
      else true
    else true
  else false

/-- `Database.get_due_reminders(current_time)`: the active rows, in
`datetime` order, that pass the due test. -/
def get_due_reminders (rows : List Reminder) (current_time : DateTime) :
    List Reminder :=
  (get_reminders rows).filter (fun r => isDueReminder r current_time)

/-- `Database.reschedule_reminder`: `UPDATE reminders SET datetime = ? WHERE
id = ?`. -/
def reschedule_reminder (rows : List Reminder) (rid : Nat) (nt : DateTime) :
    List Reminder :=
  rows.map (fun r => if r.id = rid then { r with datetime := nt } else r)

/-- `Database.mark_reminder_complete`: `UPDATE reminders SET active = 0 WHERE
id = ?`. -/
def mark_reminder_complete (rows : List Reminder) (rid : Nat) : List Reminder :=
  rows.map (fun r => if r.id = rid then { r with active := false } else r)

/-- `Database.mark_reminder_triggered`: `UPDATE reminders SET last_triggered
= ? WHERE id = ?` with the current wall-clock instant. -/
def mark_reminder_triggered (rows : List Reminder) (rid : Nat)
    (now : DateTime) : List Reminder :=
  rows.map (fun r => if r.id = rid then { r with last_triggered := some now } else r)

/-- `Database.update_reminder(id, datetime=...)`: the scheduler persists the
next occurrence through the generic update with only the `datetime` field. -/
def update_reminder_datetime (rows : List Reminder) (rid : Nat)
    (nt : DateTime) : List Reminder :=
  rows.map (fun r => if r.id = rid then { r with datetime := nt } else r)

/-! ## Reminder scheduler (`reminder_checker.py`) -/

/-- The in-memory state of `ReminderChecker` relevant to call handling:
the in-call flag, the single pending reminder slot (`None` or an id), and the
answered flag. -/
structure CheckerState where
  in_phone_call : Bool
  pending_reminder_id : Option Nat
  call_was_answered : Bool
deriving DecidableEq, Repr

/-- Python truthiness of `self.pending_reminder_id` (an `int` or `None`):
`None` and `0` are falsy. SQLite row ids start at 1. -/
def truthyId : Option Nat → Bool
  | none => false
  | some i => i ≠ 0

/-- `ReminderChecker.set_call_answered`. -/
def set_call_answered (answered : Bool) (st : CheckerState) : CheckerState :=
  { st with call_was_answered := answered }

/-- `ReminderChecker._handle_call_ended`, acting on the checker state and the
reminder rows; `now` is the wall clock read by `datetime.now()`. If the call
was answered, a `SELECT recurrence ... WHERE id = ?` decides: a truthy
recurrence leaves the store alone, otherwise the reminder is deactivated; if
not answered, the reminder is rescheduled to `now + timedelta(minutes=5)`.
The pending slot and answered flag are cleared at the end. -/
def handle_call_ended (st : CheckerState) (rows : List Reminder)
    (now : DateTime) : CheckerState × List Reminder :=
  if !truthyId st.pending_reminder_id then (st, rows)
  else
    match st.pending_reminder_id with
    | none => (st, rows)
    | some rid =>
        let rows' :=
          if st.call_was_answered then
            match rows.find? (fun r => r.id = rid) with
            | some row =>
                if truthyStr row.recurrence then rows
                else mark_reminder_complete rows rid
            | none => mark_reminder_complete rows rid
          else
            reschedule_reminder rows rid (addMinutes now 5)
        ({ st with pending_reminder_id := none, call_was_answered := false },
         rows')

/-- `ReminderChecker.set_in_call`: update the flag, and when the flag drops
from true to false with a pending reminder, run `_handle_call_ended`. -/
def set_in_call (in_call : Bool) (st : CheckerState) (rows : List Reminder)
    (now : DateTime) : CheckerState × List Reminder :=
  let old_status := st.in_phone_call
  let st1 := { st with in_phone_call := in_call }
  if old_status && !in_call && truthyId st.pending_reminder_id then
    handle_call_ended st1 rows now
  else (st1, rows)

/-- `ReminderChecker._schedule_next_occurrence`: the next instant computed
for a recurring reminder, or `none` when the recurrence is neither `daily`
nor `weekly`; each `datetime.replace` may raise `ValueError`. -/
def schedule_next_occurrence (recurrence : Option String)
    (reminder_time current_time : DateTime) :
    Except String (Option DateTime) :=
  if recurrence = some "daily" then do
    let nt ← dtReplaceYMD reminder_time current_time.year current_time.month
        current_time.day
    if dtLe nt current_time then
      let nt2 ← dtReplaceDay nt (nt.day + 1)
      return some nt2
    else
      return some nt
  else if recurrence = some "weekly" then do
    let nt ← dtReplaceDay reminder_time (reminder_time.day + 1)
    return some nt
  else
    return none

/-! ## Call-status webhook (`twilio_media_streams.py` `status_webhook`) -/

/-- The answered signal the status webhook sends to the scheduler for a given
`CallStatus` value: `in-progress` signals true, the listed not-answered
statuses signal false, every other status sends no signal. -/
def statusAnsweredSignal (call_status : String) : Option Bool :=
  if call_status = "in-progress" then some true
  else if ["failed", "busy", "no-answer", "canceled"].contains call_status then
    some false
  else none

/-- Effect of one status webhook request on the checker's answered flag. -/
def statusWebhookUpdate (call_status : String) (st : CheckerState) :
    CheckerState :=
  match statusAnsweredSignal call_status with
  | some b => set_call_answered b st
  | none => st

/-! ## Function-call dispatch (`gemini_live_client.py`
`_handle_function_calls`) -/

/-- The body a `FunctionResponse` carries back to the session: either
`{"result": str(result)}` or `{"error": message}`. -/
inductive FnPayload where
  | result (s : String)
  | error (s : String)
deriving DecidableEq, Repr

/-- One function-call event from the model: provider correlation id, function
name, argument map (modelled as a string-keyed association list). -/
structure FunctionCall where
  id : String
  name : String
  args : List (String × String)
deriving DecidableEq, Repr

/-- The `types.FunctionResponse` sent back into the session. -/
structure FunctionResponse where
  id : String
  name : String
  response : FnPayload
deriving DecidableEq, Repr

/-- A registered handler: the wrapped sub-agent coroutine, which either
returns a result string or raises with a message. -/
def FnHandler : Type := List (String × String) → Except String String

/-- `args.get(key, default)` on the argument map. -/
def argsGet (args : List (String × String)) (key default : String) : String :=
  match args.lookup key with
  | some v => v
  | none => default

/-- Dispatch of a single function call: resolve the handler by name in
`self.function_handlers`; wrap a normal return as a result response, a raised
exception as an error response, and an unknown name as a
`No handler for <name>` error response. The original `fc.id` is echoed in
every case. -/
def handleOneFunctionCall (handlers : String → Option FnHandler)
    (fc : FunctionCall) : FunctionResponse :=
  match handlers fc.name with
  | some h =>
      match h fc.args with
      | .ok r => { id := fc.id, name := fc.name, response := .result r }
      | .error e => { id := fc.id, name := fc.name, response := .error e }
  | none =>
      { id := fc.id, name := fc.name,
        response := .error ("No handler for " ++ fc.name) }

/-- `_handle_function_calls`: the loop over `tool_call.function_calls`,
sending one response per call into the session, in order. -/
def handle_function_calls (handlers : String → Option FnHandler)
    (calls : List FunctionCall) : List FunctionResponse :=
  calls.map (handleOneFunctionCall handlers)

/-! ## Reminder agent (`sub_agents_elderly.py`), list action, and the
`translations.py` table at the default configuration `LANGUAGE='english'` -/

/-- `get_text(key, 'english')` restricted to the keys the reminder agent's
dispatch and list action read; unknown keys fall back to the key itself. -/
def getTextEn (key : String) : String :=
  if key = "no_reminders" then "You have no reminders set"
  else if key = "your_reminders" then "Your reminders:"
  else if key = "every_day" then "every day"
  else if key = "every" then "every"
  else if key = "at" then "at"
  else if key = "unknown_action" then "Unknown reminder action"
  else key

/-- Two-digit zero-padded decimal field of `strftime`. -/
def pad2 (n : Nat) : String :=
  if n < 10 then "0" ++ toString n else toString n

/-- `strftime('%I')`: zero-padded hour on the 12-hour clock. -/
def hour12 (h : Nat) : Nat :=
  if h % 12 = 0 then 12 else h % 12

/-- `strftime('%p')` for an hour of day. -/
def amPm (h : Nat) : String :=
  if h < 12 then "AM" else "PM"

/-- `strftime('%B')`: full English month name. -/
def monthName (m : Nat) : String :=
  match m with
  | 1 => "January"
  | 2 => "February"
  | 3 => "March"
  | 4 => "April"
  | 5 => "May"
  | 6 => "June"
  | 7 => "July"
  | 8 => "August"
  | 9 => "September"
  | 10 => "October"
  | 11 => "November"
  | _ => "December"

/-- `reminder_time.strftime('%I:%M %p on %B %d')` as used by
`_list_reminders`. -/
def fmtListTime (t : DateTime) : String :=
  pad2 (hour12 t.hour) ++ ":" ++ pad2 t.minute ++ " " ++ amPm t.hour ++
    " on " ++ monthName t.month ++ " " ++ pad2 t.day

/-- The recurrence suffix of one listed line. -/
def listRecurrenceText (r : Reminder) : String :=
  if r.recurrence = some "daily" then " (" ++ getTextEn "every_day" ++ ")"
  else if r.recurrence = some "weekly" && truthyStr r.days_of_week then
    match r.days_of_week with
    | some ds => " (" ++ getTextEn "every" ++ " " ++ ds ++ ")"
    | none => ""
  else ""

/-- `ReminderAgent._list_reminders`: with no active reminders return the
`no_reminders` text; otherwise the header line followed by one line per
reminder, joined with newlines. -/
def list_reminders (rows : List Reminder) : String :=
  let reminders := get_reminders rows
  if reminders.isEmpty then getTextEn "no_reminders"
  else
    String.intercalate "\n"
      (getTextEn "your_reminders" ::
        reminders.map (fun r =>
          "- " ++ r.title ++ " " ++ getTextEn "at" ++ " " ++
            fmtListTime r.datetime ++ listRecurrenceText r))

/-- `ReminderAgent.execute`: action dispatch. The create/delete/edit branches
(whose behaviour is irrelevant to the claims settled here) are passed in as
parameters, so every theorem about the list path holds for any
implementation of them. -/
def reminderExecute (createA deleteA editA : List (String × String) → String)
    (rows : List Reminder) (args : List (String × String)) : String :=
  let action := argsGet args "action" "list"
  if action = "create" then createA args
  else if action = "list" then list_reminders rows
  else if action = "delete" then deleteA args
  else if action = "edit" then editA args
  else getTextEn "unknown_action" ++ ": " ++ action

/-! ## LiveSession connection state (`gemini_live_client.py` `disconnect`) -/

/-- The connection-relevant state of `GeminiLiveClient`: whether
`self._session_context` is non-`None`, and the `is_connected` liveness
flag. -/
structure LiveConn where
  hasContext : Bool
  is_connected : Bool
deriving DecidableEq, Repr

/-- `GeminiLiveClient.disconnect`. The only fallible step is the awaited
`__aexit__` of the session context; `closeRaises` says whether that upstream
close raises on this invocation. A raise is caught and logged, so the
function returns normally in every case, but the state resets (liveness
false, session and context cleared) happen only after a successful close. -/
def disconnectStep (closeRaises : Bool) (s : LiveConn) :
    Except String LiveConn :=
  if s.hasContext && s.is_connected then
    if closeRaises then .ok s
    else .ok { hasContext := false, is_connected := false }
  else .ok s

/-- Two sequential `disconnect()` calls, with the close outcome of each. -/
def disconnectTwice (f1 f2 : Bool) (s : LiveConn) : Except String LiveConn := do
  let s1 ← disconnectStep f1 s
  disconnectStep f2 s1

/-- The state `disconnect` leaves behind (it never raises, so the transition
is total): unchanged when there is nothing to close or the close raised,
fully cleared after a successful close. -/
def disconnectNext (closeRaises : Bool) (s : LiveConn) : LiveConn :=
  if s.hasContext && s.is_connected then
    if closeRaises then s
    else { hasContext := false, is_connected := false }
  else s

/-! ## Audio transcoding (`twilio_media_streams.py` media paths, CPython
`audioop` semantics for width 2, mono).

PCM frames are modelled as their lists of 16-bit signed samples (`Int`,
two bytes per sample on the wire); companded frames as lists of mu-law code
bytes (`Nat` below 256, one byte per sample). -/

/-- The `seg_uend` segment-end table of `audioop.c`. -/
def segUend : List Int := [0x3F, 0x7F, 0xFF, 0x1FF, 0x3FF, 0x7FF, 0xFFF, 0x1FFF]

/-- The linear `search` of `audioop.c`: index of the first table entry that
is at least `val`, or the table size when none is. -/
def ulawSearch (val : Int) : List Int → Nat
  | [] => 0
  | t :: ts => if val ≤ t then 0 else 1 + ulawSearch val ts

/-- `st_14linear2ulaw` of `audioop.c` (CLIP 8159, BIAS 0x84): sign/magnitude
split, clip, bias by `BIAS >> 2`, segment lookup, and bit-complement via the
sign mask. The argument is the 14-bit value the caller derived from the
16-bit sample. -/
def st_14linear2ulaw (pcm : Int) : Nat :=
  let mask : Nat := if pcm < 0 then 0x7F else 0xFF
  let mag := if pcm < 0 then -pcm else pcm
  let clipped := if mag > 8159 then 8159 else mag
  let biased := clipped + 33
  let seg := ulawSearch biased segUend
  if seg ≥ 8 then Nat.xor 0x7F mask
  else Nat.xor ((seg <<< 4) ||| ((biased.toNat >>> (seg + 1)) &&& 0xF)) mask

/-- `audioop.lin2ulaw` per 16-bit sample: the C driver loads the sample
scaled to 32 bits and passes `sample32 >> 18`, i.e. the arithmetic
`sample >> 2` (floor division by 4). -/
def lin2ulaw16 (s : Int) : Nat :=
  st_14linear2ulaw (Int.fdiv s 4)

/-- `st_ulaw2linear16` of `audioop.c`: complement the code byte, rebuild the
biased magnitude from quantization and segment bits, subtract the bias with
the sign applied. -/
def st_ulaw2linear16 (u : Nat) : Int :=
  let uv := 255 - (u % 256)
  let t : Nat := (((uv &&& 0xF) <<< 3) + 0x84) <<< ((uv &&& 0x70) >>> 4)
  if uv &&& 0x80 ≠ 0 then (0x84 : Int) - (t : Int) else (t : Int) - 0x84

/-- One output sample of `audioop.ratecv`: linear interpolation between the
previous and current 32-bit-scaled samples at weight `d/outr` (C truncating
division), then the arithmetic `>> 16` (floor division) back to 16 bits. -/
def ratecvInterp (outr prev cur d : Int) : Int :=
  Int.fdiv (Int.tdiv (prev * d + cur * (outr - d)) outr) 65536

/-- The inner `while (d >= 0)` emit loop of `ratecv`: output interpolated
samples, decrementing `d` by the reduced input rate until it drops below
zero; returns the outputs and the final `d`. The fuel argument is an upper
bound on the iteration count (the loop runs `d / inr + 1` times). -/
def ratecvEmit (inr outr prev cur : Int) : Nat → Int → List Int × Int
  | 0, d => ([], d)
  | fuel + 1, d =>
      if d < 0 then ([], d)
      else
        let p := ratecvEmit inr outr prev cur fuel (d - inr)
        (ratecvInterp outr prev cur d :: p.1, p.2)

/-- The outer `for (;;)` loop of `ratecv` (mono, width 2, default weights
`weightA=1, weightB=0`, under which the input prefilter is the identity):
consume one frame per step, scaling it to 32 bits, add the reduced output
rate to `d`, and emit whenever `d` becomes non-negative; return when the
input is exhausted. -/
def ratecvGo (inr outr : Int) : List Int → Int → Int → Int → List Int
  | [], _, _, _ => []
  | x :: xs, _, cur, d =>
      let cur' := x * 65536
      let d1 := d + outr
      if d1 < 0 then ratecvGo inr outr xs cur cur' d1
      else
        let p := ratecvEmit inr outr cur cur' (d1.toNat + 1) d1
        p.1 ++ ratecvGo inr outr xs cur cur' p.2

/-- `audioop.ratecv(frame, 2, 1, inRate, outRate, None)`: reduce the rates by
their gcd, start from the zero state (`d = -outrate`, previous and current
samples zero), and run the conversion loop. Only the converted fragment is
modelled; the returned resumption state is discarded by the caller, which
passes `None` on every invocation. -/
def ratecv (inRate outRate : Nat) (xs : List Int) : List Int :=
  let g := Nat.gcd inRate outRate
  let inr : Int := (inRate / g : Nat)
  let outr : Int := (outRate / g : Nat)
  ratecvGo inr outr xs 0 0 (-outr)

/-- The downlink conversion of `send_audio_to_twilio`: resample the 24 kHz
PCM frame to 8 kHz, then compand to mu-law. -/
def downlinkToCaller (pcm24 : List Int) : List Nat :=
  (ratecv 24000 8000 pcm24).map lin2ulaw16

/-- The uplink conversion of the `media` event path in
`handle_media_stream`: decompand the mu-law frame to 16-bit PCM, then
resample from 8 kHz to 24 kHz. -/
def uplinkFromCaller (ulaw : List Nat) : List Int :=
  ratecv 8000 24000 (ulaw.map st_ulaw2linear16)

/-! ## Helper lemmas -/

/-- Enqueueing from a buffer with spare room appends until the capacity is
reached; the frames arriving after that are discarded. -/
theorem bufferEnqueueAll_eq_take {α : Type} (xs : List α) :
    ∀ buf : List α, buf.length ≤ max_buffer_size →
      bufferEnqueueAll buf xs = buf ++ xs.take (max_buffer_size - buf.length) := by
  induction xs with
  | nil => intro buf _; simp [bufferEnqueueAll]
  | cons x xs ih =>
      intro buf h
      by_cases hlt : buf.length < max_buffer_size
      · have happ : bufferAppend buf x = buf ++ [x] := by
          simp [bufferAppend, hlt]
        have hlen : (buf ++ [x]).length ≤ max_buffer_size := by
          simpa using hlt
        have hrec := ih (buf ++ [x]) hlen
        have hsub : max_buffer_size - buf.length
            = (max_buffer_size - (buf.length + 1)) + 1 := by omega
        simp only [bufferEnqueueAll, List.foldl_cons] at *
        rw [happ, hrec, hsub]
        simp [List.take_succ_cons]
      · have hfull : bufferAppend buf x = buf := by
          simp [bufferAppend, hlt]
        have hz : max_buffer_size - buf.length = 0 := by omega
        have hrec := ih buf h
        simp only [bufferEnqueueAll, List.foldl_cons] at *
        rw [hfull, hrec, hz]
        simp

/-- Membership is preserved by the datetime-ordered insertion step. -/
theorem mem_insertByDatetime {a r : Reminder} {l : List Reminder} :
    a ∈ insertByDatetime r l ↔ a = r ∨ a ∈ l := by
  induction l with
  | nil => simp [insertByDatetime]
  | cons x xs ih =>
      by_cases h : dtLe r.datetime x.datetime
      · simp [insertByDatetime, h]
      · simp [insertByDatetime, h, ih]
        tauto

/-- Membership is preserved by the `ORDER BY datetime` ordering. -/
theorem mem_sortByDatetime {a : Reminder} {l : List Reminder} :
    a ∈ sortByDatetime l ↔ a ∈ l := by
  induction l with
  | nil => simp [sortByDatetime]
  | cons x xs ih =>
      simp only [sortByDatetime, List.foldr_cons] at *
      rw [mem_insertByDatetime, ih]
      simp

/-- Membership in `get_reminders(active_only=True)`. -/
theorem mem_get_reminders {r : Reminder} {rows : List Reminder} :
    r ∈ get_reminders rows ↔ r ∈ rows ∧ r.active = true := by
  rw [get_reminders, mem_sortByDatetime, List.mem_filter]

/-- Membership in `get_due_reminders`. -/
theorem mem_get_due_reminders {r : Reminder} {rows : List Reminder}
    {now : DateTime} :
    r ∈ get_due_reminders rows now ↔
      r ∈ rows ∧ r.active = true ∧ isDueReminder r now = true := by
  rw [get_due_reminders, List.mem_filter, mem_get_reminders]
  tauto

/-- A pair drawn from a list zipped with its image under `map` relates the
row to its image. -/
theorem zip_map_snd {α : Type} (f : α → α) (l : List α) :
    ∀ p ∈ l.zip (l.map f), p.2 = f p.1 := by
  induction l with
  | nil => simp
  | cons x xs ih =>
      intro p hp
      rcases List.mem_cons.mp hp with h | h
      · subst h; rfl
      · exact ih p h

/-! ## Claim C1: reconnection buffer bound and overflow policy -/

/-- C1, counterexample: enqueueing the 60 frames 0..59 into the empty
reconnection buffer retains the FIRST 50 frames, not the most recent 50
(which would be frames 10..59, i.e. `(List.range 60).drop 10`): the code
skips the append when the buffer is full, so the newest frame is dropped on
overflow, not the oldest. -/
theorem buffer_sixty_frames_keeps_first_not_recent :
    bufferEnqueueAll ([] : List Nat) (List.range 60) = List.range 50 ∧
    bufferEnqueueAll ([] : List Nat) (List.range 60) ≠ (List.range 60).drop 10 := by
  have h := bufferEnqueueAll_eq_take (List.range 60) ([] : List Nat) (by simp)
  simp only [List.length_nil, Nat.sub_zero, List.nil_append] at h
  have htake : (List.range 60).take max_buffer_size = List.range 50 := by decide
  rw [h, htake]
  exact ⟨rfl, by decide⟩

/-- C1, amended: for every arrival sequence of inbound frames enqueued while
the session is reconnecting or not connected, the reconnection buffer holds
at most 50 frames, and it retains exactly the FIRST 50 frames in arrival
order, dropping the newest frames on overflow. -/
theorem buffer_bound_and_overflow_policy {α : Type} (frames : List α) :
    bufferEnqueueAll ([] : List α) frames = frames.take max_buffer_size ∧
    (bufferEnqueueAll ([] : List α) frames).length ≤ max_buffer_size := by
  have h := bufferEnqueueAll_eq_take frames ([] : List α) (by simp)
  simp only [List.length_nil, Nat.sub_zero, List.nil_append] at h
  refine ⟨h, ?_⟩
  rw [h]
  exact List.length_take_le _ _

/-! ## Claim C2: next-occurrence scheduling for recurring reminders -/

/-- C2: on an ordinary date the daily rule does advance a passed slot to the
same time next day, but on the last day of a month both the daily and the
weekly advancement raise `ValueError` out of `datetime.replace(day=day+1)`
instead of computing the next instant, so nothing is persisted there and the
scheduler tick aborts. -/
theorem schedule_next_occurrence_month_end_raises :
    schedule_next_occurrence (some "daily")
        ⟨2025, 1, 15, 8, 0, 0⟩ ⟨2025, 1, 15, 9, 0, 0⟩
      = .ok (some ⟨2025, 1, 16, 8, 0, 0⟩) ∧
    schedule_next_occurrence (some "daily")
        ⟨2025, 1, 31, 8, 0, 0⟩ ⟨2025, 1, 31, 9, 0, 0⟩
      = .error "ValueError: day is out of range for month" ∧
    schedule_next_occurrence (some "weekly")
        ⟨2025, 1, 31, 8, 0, 0⟩ ⟨2025, 1, 31, 9, 0, 0⟩
      = .error "ValueError: day is out of range for month" := by
  refine ⟨rfl, rfl, rfl⟩

/-! ## Claim C7: double disconnect -/

/-- C7, counterexample: from the connected state, if the awaited session
close raises on both attempts, both exceptions are caught (nothing
propagates) but the liveness flag is still true after the second call,
because `is_connected = False` is only reached after a successful
`__aexit__`. -/
theorem disconnect_twice_failing_close_keeps_liveness :
    disconnectTwice true true { hasContext := true, is_connected := true }
      = .ok { hasContext := true, is_connected := true } := by
  rfl

/-- C7, amended: calling `disconnect()` twice in sequence from any reachable
state (a connected session holds its context object) never raises; after the
second call the liveness flag is false, except when the session was
connected and the underlying close raised on both attempts, in which case
the errors are swallowed and liveness remains true. -/
theorem disconnect_twice_no_raise_liveness (s : LiveConn) (f1 f2 : Bool)
    (hreach : s.is_connected = true → s.hasContext = true) :
    (disconnectTwice f1 f2 s).isOk = true ∧
    (¬(s.is_connected = true ∧ f1 = true ∧ f2 = true) →
      ∀ s', disconnectTwice f1 f2 s = .ok s' → s'.is_connected = false) := by
  have hstep : ∀ f t, disconnectStep f t = .ok (disconnectNext f t) := by
    intro f t
    rcases t with ⟨hc, ic⟩
    cases hc <;> cases ic <;> cases f <;> rfl
  have htwice : disconnectTwice f1 f2 s
      = .ok (disconnectNext f2 (disconnectNext f1 s)) := by
    rw [disconnectTwice, hstep]
    exact hstep _ _
  refine ⟨by rw [htwice]; rfl, ?_⟩
  intro hn s' hs'
  rw [htwice] at hs'
  cases hs'
  rcases s with ⟨hc, ic⟩
  cases hc <;> cases ic <;> cases f1 <;> cases f2 <;>
    first
    | rfl
    | exact absurd (hreach rfl) (by decide)
    | exact absurd ⟨rfl, rfl, rfl⟩ hn

/-- C7 witness: never-connected state, both hypothetical closes succeeding. -/
theorem disconnect_twice_no_raise_liveness_witness :
    (disconnectTwice false false { hasContext := false, is_connected := false }).isOk = true ∧
    ∀ s', disconnectTwice false false { hasContext := false, is_connected := false }
        = .ok s' → s'.is_connected = false := by
  have h := disconnect_twice_no_raise_liveness
    { hasContext := false, is_connected := false } false false (by intro h; cases h)
  exact ⟨h.1, h.2 (by simp)⟩

/-! ## Claim C8: call-status webhook answered signal -/

/-- C8, counterexample: a `completed` status webhook does not signal
answered=false — it sends no answered signal at all, leaving a true answered
flag standing (which is what lets an answered call complete its reminder
when the `stop` event later ends the call). -/
theorem completed_status_signals_nothing :
    statusAnsweredSignal "completed" = none ∧
    statusWebhookUpdate "completed"
        { in_phone_call := true, pending_reminder_id := some 1,
          call_was_answered := true }
      = { in_phone_call := true, pending_reminder_id := some 1,
          call_was_answered := true } := by
  refine ⟨by decide, by decide⟩

/-- C8, amended: `in-progress` signals answered=true; of the terminal
statuses exactly `failed`, `busy`, `no-answer` and `canceled` signal
answered=false; `completed` and every other status (`initiated`, `ringing`,
...) leave the answered flag unchanged. -/
theorem status_webhook_answered_signal (s : String) (st : CheckerState)
    (hni : s ≠ "in-progress")
    (hnf : s ∉ (["failed", "busy", "no-answer", "canceled"] : List String)) :
    statusAnsweredSignal "in-progress" = some true ∧
    statusAnsweredSignal "failed" = some false ∧
    statusAnsweredSignal "busy" = some false ∧
    statusAnsweredSignal "no-answer" = some false ∧
    statusAnsweredSignal "canceled" = some false ∧
    (statusWebhookUpdate "in-progress" st).call_was_answered = true ∧
    (statusWebhookUpdate "no-answer" st).call_was_answered = false ∧
    statusWebhookUpdate s st = st := by
  refine ⟨by decide, by decide, by decide, by decide, by decide, rfl, rfl, ?_⟩
  have h1 : statusAnsweredSignal s = none := by
    unfold statusAnsweredSignal
    rw [if_neg hni, if_neg]
    simpa using hnf
  unfold statusWebhookUpdate
  rw [h1]

/-- C8 witness: the `completed` status at a concrete checker state. -/
theorem status_webhook_answered_signal_witness :
    statusWebhookUpdate "completed"
        { in_phone_call := false, pending_reminder_id := none,
          call_was_answered := false }
      = { in_phone_call := false, pending_reminder_id := none,
          call_was_answered := false } :=
  (status_webhook_answered_signal "completed"
    { in_phone_call := false, pending_reminder_id := none,
      call_was_answered := false } (by decide) (by decide)).2.2.2.2.2.2.2

/-! ## Claim C3: weekly Monday-only reminder eligibility -/

/-- C3: for an active `weekly` reminder restricted to `monday` whose
scheduled instant has passed, `get_due_reminders` excludes it on any
non-Monday; on a Monday it includes it exactly when `last_triggered` does
not fall on today's date, and excludes it (at most once per calendar day)
when it does. -/
theorem weekly_monday_reminder_due (rows : List Reminder) (r : Reminder)
    (now : DateTime)
    (hrec : r.recurrence = some "weekly")
    (hdays : r.days_of_week = some "monday")
    (hact : r.active = true)
    (hpast : dtLe r.datetime now = true)
    (hmem : r ∈ rows) :
    (weekdayName now.year now.month now.day ≠ "monday" →
        r ∉ get_due_reminders rows now) ∧
    (weekdayName now.year now.month now.day = "monday" →
        ((∀ lt, r.last_triggered = some lt → dtDate lt ≠ dtDate now) →
            r ∈ get_due_reminders rows now) ∧
        (∀ lt, r.last_triggered = some lt → dtDate lt = dtDate now →
            r ∉ get_due_reminders rows now)) := by
  have hsplit : splitDays "monday" = ["monday"] := by decide
  have htw : truthyStr (some "weekly") = true := by decide
  have htm : truthyStr (some "monday") = true := by decide
  have hbeq : ∀ a b : String, (a == b) = decide (a = b) := by
    intro a b
    rw [Bool.eq_iff_iff, beq_iff_eq, decide_eq_true_eq]
  rcases hlt : r.last_triggered with _ | lt
  · have hdue : isDueReminder r now
        = decide (weekdayName now.year now.month now.day = "monday") := by
      simp [isDueReminder, hrec, hdays, hpast, hlt, hsplit, htw, htm,
        List.contains, hbeq]
    constructor
    · intro hne
      rw [mem_get_due_reminders, hdue]
      simp [hne]
    · intro heq
      refine ⟨fun _ => ?_, fun lt h => by cases h⟩
      rw [mem_get_due_reminders, hdue]
      simp [heq, hmem, hact]
  · by_cases hsame : dtDate lt = dtDate now
    · have hdue : isDueReminder r now = false := by
        simp [isDueReminder, hrec, hdays, hpast, hlt, htw, hsame]
      constructor
      · intro _
        rw [mem_get_due_reminders, hdue]
        simp
      · intro _
        refine ⟨fun habs => absurd hsame (habs lt rfl), fun lt' h _ => ?_⟩
        rw [mem_get_due_reminders, hdue]
        simp
    · have hdue : isDueReminder r now
          = decide (weekdayName now.year now.month now.day = "monday") := by
        simp [isDueReminder, hrec, hdays, hpast, hlt, hsplit, htw, htm,
          hsame, List.contains, hbeq]
      constructor
      · intro hne
        rw [mem_get_due_reminders, hdue]
        simp [hne]
      · intro heq
        refine ⟨fun _ => ?_, fun lt' h hd => ?_⟩
        · rw [mem_get_due_reminders, hdue]
          simp [heq, hmem, hact]
        · cases h
          exact absurd hd hsame

/-- C3 witness: a weekly Monday reminder in a one-row store, with the clock
on Monday 2025-01-06 09:00 past its 08:00 slot and no prior trigger, is
returned by `get_due_reminders`. -/
theorem weekly_monday_reminder_due_witness :
    ({ id := 1, title := "take pill",
       datetime := ⟨2025, 1, 6, 8, 0, 0⟩,
       recurrence := some "weekly", days_of_week := some "monday",
       active := true, last_triggered := none } : Reminder) ∈
      get_due_reminders
        [{ id := 1, title := "take pill",
           datetime := ⟨2025, 1, 6, 8, 0, 0⟩,
           recurrence := some "weekly", days_of_week := some "monday",
           active := true, last_triggered := none }]
        ⟨2025, 1, 6, 9, 0, 0⟩ := by
  have h := weekly_monday_reminder_due
    [{ id := 1, title := "take pill",
       datetime := ⟨2025, 1, 6, 8, 0, 0⟩,
       recurrence := some "weekly", days_of_week := some "monday",
       active := true, last_triggered := none }]
    { id := 1, title := "take pill",
      datetime := ⟨2025, 1, 6, 8, 0, 0⟩,
      recurrence := some "weekly", days_of_week := some "monday",
      active := true, last_triggered := none }
    ⟨2025, 1, 6, 9, 0, 0⟩ rfl rfl rfl (by decide) (by decide)
  exact (h.2 (by decide)).1 (fun lt hlt => by cases hlt)

/-! ## Claim C4: unanswered reminder call is rescheduled five minutes out -/

/-- C4: when the in-call flag drops from true to false while a pending
reminder association exists and the call was not answered, the pending
reminder's scheduled instant is set to now plus five minutes (whatever its
recurrence kind), every row's active flag is untouched, and the pending
association and answered flag are cleared. -/
theorem unanswered_call_reschedules_plus5 (st : CheckerState)
    (rows : List Reminder) (now : DateTime) (rid : Nat)
    (hin : st.in_phone_call = true)
    (hp : st.pending_reminder_id = some rid)
    (hrid : rid ≠ 0)
    (hans : st.call_was_answered = false) :
    set_in_call false st rows now
      = ({ in_phone_call := false, pending_reminder_id := none,
           call_was_answered := false },
         reschedule_reminder rows rid (addMinutes now 5)) ∧
    (reschedule_reminder rows rid (addMinutes now 5)).map Reminder.active
      = rows.map Reminder.active ∧
    ∀ q ∈ rows, q.id = rid →
      { q with datetime := addMinutes now 5 }
        ∈ reschedule_reminder rows rid (addMinutes now 5) := by
  refine ⟨?_, ?_, ?_⟩
  · simp [set_in_call, handle_call_ended, hin, hp, hrid, hans, truthyId]
  · rw [reschedule_reminder, List.map_map]
    refine List.map_congr_left ?_
    intro q _
    by_cases h : q.id = rid <;> simp [h]
  · intro q hq hid
    have := List.mem_map_of_mem
      (fun r => if r.id = rid then { r with datetime := addMinutes now 5 } else r) hq
    simpa [reschedule_reminder, hid] using this

/-- C4 witness: a one-row store, pending reminder 1, call unanswered. -/
theorem unanswered_call_reschedules_plus5_witness :
    set_in_call false
        { in_phone_call := true, pending_reminder_id := some 1,
          call_was_answered := false }
        [{ id := 1, title := "take pill",
           datetime := ⟨2025, 1, 6, 8, 0, 0⟩, recurrence := none,
           days_of_week := none, active := true, last_triggered := none }]
        ⟨2025, 1, 6, 9, 0, 0⟩
      = ({ in_phone_call := false, pending_reminder_id := none,
           call_was_answered := false },
         reschedule_reminder
           [{ id := 1, title := "take pill",
              datetime := ⟨2025, 1, 6, 8, 0, 0⟩, recurrence := none,
              days_of_week := none, active := true, last_triggered := none }]
           1 (addMinutes ⟨2025, 1, 6, 9, 0, 0⟩ 5)) :=
  (unanswered_call_reschedules_plus5
    { in_phone_call := true, pending_reminder_id := some 1,
      call_was_answered := false }
    [{ id := 1, title := "take pill",
       datetime := ⟨2025, 1, 6, 8, 0, 0⟩, recurrence := none,
       days_of_week := none, active := true, last_triggered := none }]
    ⟨2025, 1, 6, 9, 0, 0⟩ 1 rfl rfl (by decide) rfl).1

/-! ## Claim C5: answered reminder call completes or leaves the schedule -/

/-- C5: when the in-call flag drops from true to false while a pending
reminder association exists and the call was answered, a reminder whose
recurrence is falsy (NULL or empty) is deactivated, a recurring reminder's
rows are left untouched (its schedule was already advanced at trigger time),
every row's datetime is untouched by the deactivation, and the pending
association and answered flag are cleared in both cases. -/
theorem answered_call_completion (st : CheckerState) (rows : List Reminder)
    (now : DateTime) (rid : Nat) (r : Reminder)
    (hin : st.in_phone_call = true)
    (hp : st.pending_reminder_id = some rid)
    (hrid : rid ≠ 0)
    (hans : st.call_was_answered = true)
    (hfind : rows.find? (fun q => q.id = rid) = some r) :
    set_in_call false st rows now
      = ({ in_phone_call := false, pending_reminder_id := none,
           call_was_answered := false },
         if truthyStr r.recurrence then rows
         else mark_reminder_complete rows rid) ∧
    (∀ q ∈ mark_reminder_complete rows rid, q.id = rid → q.active = false) ∧
    (mark_reminder_complete rows rid).map Reminder.datetime
      = rows.map Reminder.datetime := by
  refine ⟨?_, ?_, ?_⟩
  · simp [set_in_call, handle_call_ended, hin, hp, hrid, hans, truthyId,
      hfind]
  · intro q hq hid
    rcases List.mem_map.mp hq with ⟨a, _, ha⟩
    by_cases h : a.id = rid
    · rw [if_pos h] at ha
      rw [← ha]
    · rw [if_neg h] at ha
      rw [← ha] at hid
      exact absurd hid h
  · rw [mark_reminder_complete, List.map_map]
    refine List.map_congr_left ?_
    intro q _
    by_cases h : q.id = rid <;> simp [h]

/-- C5 witness: a non-recurring pending reminder, call answered; the store
row is deactivated and the pending slot cleared. -/
theorem answered_call_completion_witness :
    set_in_call false
        { in_phone_call := true, pending_reminder_id := some 1,
          call_was_answered := true }
        [{ id := 1, title := "take pill",
           datetime := ⟨2025, 1, 6, 8, 0, 0⟩, recurrence := none,
           days_of_week := none, active := true, last_triggered := none }]
        ⟨2025, 1, 6, 9, 0, 0⟩
      = ({ in_phone_call := false, pending_reminder_id := none,
           call_was_answered := false },
         if truthyStr (none : Option String) then
           [{ id := 1, title := "take pill",
              datetime := ⟨2025, 1, 6, 8, 0, 0⟩, recurrence := none,
              days_of_week := none, active := true, last_triggered := none }]
         else
           mark_reminder_complete
             [{ id := 1, title := "take pill",
                datetime := ⟨2025, 1, 6, 8, 0, 0⟩, recurrence := none,
                days_of_week := none, active := true, last_triggered := none }]
             1) :=
  (answered_call_completion
    { in_phone_call := true, pending_reminder_id := some 1,
      call_was_answered := true }
    [{ id := 1, title := "take pill",
       datetime := ⟨2025, 1, 6, 8, 0, 0⟩, recurrence := none,
       days_of_week := none, active := true, last_triggered := none }]
    ⟨2025, 1, 6, 9, 0, 0⟩ 1
    { id := 1, title := "take pill",
      datetime := ⟨2025, 1, 6, 8, 0, 0⟩, recurrence := none,
      days_of_week := none, active := true, last_triggered := none }
    rfl rfl (by decide) rfl (by decide)).1

/-! ## Claim C10: frame conditions of the two row updates -/

/-- C10: `reschedule_reminder(id, t)` rewrites only the `datetime` field of
the rows carrying that id (title, recurrence, days_of_week, active and
last_triggered of that row are kept) and leaves every other row identical;
`mark_reminder_complete(id)` rewrites only the matching rows' `active` flag
to false and leaves every other row identical. Row counts never change. -/
theorem row_update_frame_conditions (rows : List Reminder) (rid : Nat)
    (nt : DateTime) :
    (reschedule_reminder rows rid nt).length = rows.length ∧
    (∀ p ∈ rows.zip (reschedule_reminder rows rid nt),
        (p.1.id ≠ rid → p.2 = p.1) ∧
        (p.1.id = rid → p.2 = { p.1 with datetime := nt })) ∧
    (mark_reminder_complete rows rid).length = rows.length ∧
    (∀ p ∈ rows.zip (mark_reminder_complete rows rid),
        (p.1.id ≠ rid → p.2 = p.1) ∧
        (p.1.id = rid → p.2 = { p.1 with active := false })) := by
  refine ⟨List.length_map _ _, ?_, List.length_map _ _, ?_⟩
  · intro p hp
    rw [reschedule_reminder] at hp
    have h := zip_map_snd
      (fun r => if r.id = rid then { r with datetime := nt } else r) rows p hp
    constructor
    · intro hne
      simp [h, hne]
    · intro heq
      simp [h, heq]
  · intro p hp
    rw [mark_reminder_complete] at hp
    have h := zip_map_snd
      (fun r => if r.id = rid then { r with active := false } else r) rows p hp
    constructor
    · intro hne
      simp [h, hne]
    · intro heq
      simp [h, heq]

/-- C10 witness: a two-row store; the row with the other id is returned
unchanged by the zip-wise frame condition, instantiated at id 1. -/
theorem row_update_frame_conditions_witness :
    (({ id := 2, title := "walk", datetime := ⟨2025, 1, 7, 8, 0, 0⟩,
        recurrence := none, days_of_week := none, active := true,
        last_triggered := none } : Reminder),
      ({ id := 2, title := "walk", datetime := ⟨2025, 1, 7, 8, 0, 0⟩,
         recurrence := none, days_of_week := none, active := true,
         last_triggered := none } : Reminder)).2
      = { id := 2, title := "walk", datetime := ⟨2025, 1, 7, 8, 0, 0⟩,
          recurrence := none, days_of_week := none, active := true,
          last_triggered := none } := by
  have h := row_update_frame_conditions
    [{ id := 1, title := "take pill", datetime := ⟨2025, 1, 6, 8, 0, 0⟩,
       recurrence := none, days_of_week := none, active := true,
       last_triggered := none },
     { id := 2, title := "walk", datetime := ⟨2025, 1, 7, 8, 0, 0⟩,
       recurrence := none, days_of_week := none, active := true,
       last_triggered := none }] 1 ⟨2025, 1, 6, 9, 5, 0⟩
  exact (h.2.1
    ({ id := 2, title := "walk", datetime := ⟨2025, 1, 7, 8, 0, 0⟩,
       recurrence := none, days_of_week := none, active := true,
       last_triggered := none },
     { id := 2, title := "walk", datetime := ⟨2025, 1, 7, 8, 0, 0⟩,
       recurrence := none, days_of_week := none, active := true,
       last_triggered := none }) (by decide)).1 (by decide)

/-! ## Claim C6: dispatcher responses and the empty list scenario -/

/-- C6: every dispatched function call produces exactly one response carrying
the original correlation id: the handler's return value as a result payload
on success, the failure message as an error payload when the handler raises,
and a `No handler for <name>` error payload (no exception) when the name is
unregistered; the batch loop answers every call. In particular a
`manage_reminder` call with id 42 and `action=list` against an empty store
returns a response for id 42 whose payload is the `no_reminders` text, for
any behaviour of the create/delete/edit branches. -/
theorem function_call_dispatch_responses
    (handlers : String → Option FnHandler) (fc : FunctionCall) :
    (handleOneFunctionCall handlers fc).id = fc.id ∧
    (∀ h r, handlers fc.name = some h → h fc.args = .ok r →
        handleOneFunctionCall handlers fc
          = { id := fc.id, name := fc.name, response := .result r }) ∧
    (∀ h e, handlers fc.name = some h → h fc.args = .error e →
        handleOneFunctionCall handlers fc
          = { id := fc.id, name := fc.name, response := .error e }) ∧
    (handlers fc.name = none →
        handleOneFunctionCall handlers fc
          = { id := fc.id, name := fc.name,
              response := .error ("No handler for " ++ fc.name) }) ∧
    (∀ calls : List FunctionCall,
        (handle_function_calls handlers calls).length = calls.length) ∧
    (∀ createA deleteA editA,
        handleOneFunctionCall
          (fun n => if n = "manage_reminder" then
              some (fun args => .ok (reminderExecute createA deleteA editA [] args))
            else none)
          { id := "42", name := "manage_reminder",
            args := [("action", "list")] }
          = { id := "42", name := "manage_reminder",
              response := .result "You have no reminders set" }) := by
  refine ⟨?_, ?_, ?_, ?_, ?_, ?_⟩
  · rcases hcase : handlers fc.name with _ | h
    · simp [handleOneFunctionCall, hcase]
    · rcases hr : h fc.args with e | r <;>
        simp [handleOneFunctionCall, hcase, hr]
  · intro h r hh hr
    simp [handleOneFunctionCall, hh, hr]
  · intro h e hh he
    simp [handleOneFunctionCall, hh, he]
  · intro hn
    simp [handleOneFunctionCall, hn]
  · intro calls
    exact List.length_map _ _
  · intro createA deleteA editA
    rfl

/-- C6 witness: an unregistered function name yields the error response, at
an empty registry. -/
theorem function_call_dispatch_responses_witness :
    handleOneFunctionCall (fun _ => none)
        { id := "7", name := "foo", args := [] }
      = { id := "7", name := "foo",
          response := .error ("No handler for " ++ "foo") } :=
  (function_call_dispatch_responses (fun _ => none)
    { id := "7", name := "foo", args := [] }).2.2.2.1 rfl

/-- With `d` already negative the emit loop outputs nothing. -/
theorem ratecvEmit_neg (inr outr prev cur : Int) :
    ∀ (fuel : Nat) (d : Int), d < 0 →
      ratecvEmit inr outr prev cur fuel d = ([], d) := by
  intro fuel d hd
  cases fuel with
  | zero => rfl
  | succ n => simp [ratecvEmit, hd]

/-- For the reduced upsampling rates (input 1, output 3) the emit loop
started at `d ≥ 0` outputs `d + 1` samples and leaves `d = -1`. -/
theorem ratecvEmit_up (prev cur : Int) :
    ∀ (fuel : Nat) (d : Int), 0 ≤ d → d.toNat < fuel →
      (ratecvEmit 1 3 prev cur fuel d).1.length = d.toNat + 1 ∧
      (ratecvEmit 1 3 prev cur fuel d).2 = -1 := by
  intro fuel
  induction fuel with
  | zero => intro d _ hf; omega
  | succ n ih =>
      intro d h0 hf
      have hnneg : ¬(d < 0) := by omega
      by_cases hd0 : d ≤ 0
      · have hde : d = 0 := by omega
        subst hde
        have h01 : (0 : Int) - 1 = -1 := by omega
        simp [ratecvEmit, h01, ratecvEmit_neg 1 3 prev cur n (-1) (by omega)]
      · have h1 : 0 ≤ d - 1 := by omega
        have h2 : (d - 1).toNat < n := by omega
        obtain ⟨ha, hb⟩ := ih (d - 1) h1 h2
        simp [ratecvEmit, hnneg, ha, hb]
        omega

/-- Output count of the reduced 3-to-1 downsampling loop: one sample for
every third input frame, measured from the loop counter `d`. -/
theorem ratecvGo_down_length (xs : List Int) :
    ∀ (prev cur d : Int), -3 ≤ d → d ≤ -1 →
      (ratecvGo 3 1 xs prev cur d).length = (xs.length + (d + 3).toNat) / 3 := by
  induction xs with
  | nil =>
      intro prev cur d h3 h1
      have : ((d + 3).toNat) / 3 = 0 := by omega
      simpa [ratecvGo] using this.symm
  | cons x xs ih =>
      intro prev cur d h3 h1
      by_cases hd : d + 1 < 0
      · simp only [ratecvGo]
        rw [if_pos hd]
        rw [ih cur (x * 65536) (d + 1) (by omega) (by omega)]
        simp only [List.length_cons]
        congr 1
        omega
      · have hde : d = -1 := by omega
        subst hde
        have hgo : ratecvGo 3 1 (x :: xs) prev cur (-1)
            = ratecvInterp 1 cur (x * 65536) 0
                :: ratecvGo 3 1 xs cur (x * 65536) (-3) := rfl
        rw [hgo]
        simp only [List.length_cons]
        rw [ih cur (x * 65536) (-3) (by omega) (by omega)]
        omega

/-- Output count of the reduced 1-to-3 upsampling loop: the first input frame
yields `d + 4` samples, every later frame three. -/
theorem ratecvGo_up_length (xs : List Int) :
    ∀ (prev cur d : Int), -3 ≤ d → d ≤ -1 →
      (ratecvGo 1 3 xs prev cur d).length
        = if xs.length = 0 then 0
          else (d + 3).toNat + 1 + 3 * (xs.length - 1) := by
  induction xs with
  | nil => intro prev cur d _ _; simp [ratecvGo]
  | cons x xs ih =>
      intro prev cur d h3 h1
      have hd1 : ¬(d + 3 < 0) := by omega
      obtain ⟨ha, hb⟩ := ratecvEmit_up cur (x * 65536) ((d + 3).toNat + 1) (d + 3)
        (by omega) (by omega)
      simp only [ratecvGo]
      rw [if_neg hd1]
      rw [List.length_append, ha, hb]
      rw [ih cur (x * 65536) (-1) (by omega) (by omega)]
      by_cases hx : xs.length = 0 <;> (simp [hx]; try omega)

/-- The interpolation of two zero samples is zero. -/
theorem ratecvInterp_zero (outr d : Int) : ratecvInterp outr 0 0 d = 0 := by
  simp [ratecvInterp]

/-- The emit loop over zero samples outputs only zeros. -/
theorem ratecvEmit_zero_mem (inr outr : Int) :
    ∀ (fuel : Nat) (d y : Int),
      y ∈ (ratecvEmit inr outr 0 0 fuel d).1 → y = 0 := by
  intro fuel
  induction fuel with
  | zero => intro d y hy; cases hy
  | succ n ih =>
      intro d y hy
      by_cases hd : d < 0
      · rw [ratecvEmit, if_pos hd] at hy
        cases hy
      · rw [ratecvEmit, if_neg hd] at hy
        rcases List.mem_cons.mp hy with h | h
        · rw [h, ratecvInterp_zero]
        · exact ih _ y h
  
/-- The conversion loop over an all-zero frame outputs only zeros. -/
theorem ratecvGo_zero_mem (inr outr : Int) :
    ∀ (n : Nat) (d y : Int),
      y ∈ ratecvGo inr outr (List.replicate n 0) 0 0 d → y = 0 := by
  intro n
  induction n with
  | zero => intro d y hy; cases hy
  | succ m ih =>
      intro d y hy
      rw [List.replicate_succ] at hy
      by_cases hd : d + outr < 0
      · rw [ratecvGo] at hy
        simp only [Int.zero_mul, if_pos hd] at hy
        exact ih _ y hy
      · rw [ratecvGo] at hy
        simp only [Int.zero_mul, if_neg hd] at hy
        rcases List.mem_append.mp hy with h | h
        · exact ratecvEmit_zero_mem inr outr _ _ y h
        · exact ih _ y h

/-- Rate reduction of the downlink resampler: gcd(24000, 8000) = 8000. -/
theorem ratecv_down_eq (xs : List Int) :
    ratecv 24000 8000 xs = ratecvGo 3 1 xs 0 0 (-1) := by
  unfold ratecv
  norm_num

/-- Rate reduction of the uplink resampler: gcd(8000, 24000) = 8000. -/
theorem ratecv_up_eq (xs : List Int) :
    ratecv 8000 24000 xs = ratecvGo 1 3 xs 0 0 (-3) := by
  unfold ratecv
  norm_num

/-- Downlink resampling keeps every third sample: `ceil(n / 3)` outputs. -/
theorem ratecv_down_length (xs : List Int) :
    (ratecv 24000 8000 xs).length = (xs.length + 2) / 3 := by
  rw [ratecv_down_eq, ratecvGo_down_length xs 0 0 (-1) (by omega) (by omega)]
  omega

/-- Uplink resampling of `m` samples yields `3 * m - 2` outputs (zero for an
empty frame): interpolation cannot run past the final sample, hence the
two-sample edge deficit. -/
theorem ratecv_up_length (xs : List Int) :
    (ratecv 8000 24000 xs).length = 3 * xs.length - 2 := by
  rw [ratecv_up_eq, ratecvGo_up_length xs 0 0 (-3) (by omega) (by omega)]
  by_cases hx : xs.length = 0 <;> (simp [hx]; try omega)

/-! ## Claim C9: transcoder round-trip length and silence -/

/-- C9, counterexample: a silent 6-sample (12-byte) 24 kHz frame round-trips
through `downlinkToCaller` then `uplinkFromCaller` to 4 samples, not 6: the
exact rate-ratio scaling does not hold, because the interpolating upsampler
cannot emit past its final input sample (a fixed 2-sample edge deficit). -/
theorem transcode_roundtrip_shrinks :
    (uplinkFromCaller (downlinkToCaller (List.replicate 6 (0 : Int)))).length
        = 4 ∧
    (List.replicate 6 (0 : Int)).length = 6 := by
  exact ⟨by decide, by decide⟩

/-- C9, amended: both conversions are pure functions of the single frame
(`ratecv` is called with state `None` on every invocation, so nothing is
buffered across calls); an `n`-sample 24 kHz frame downlinks to
`ceil(n / 3)` mu-law bytes, the round trip yields `3 * ceil(n / 3) - 2`
samples — the rate-ratio scaling up to the upsampler's two-sample edge
deficit (equality with `n` exactly when `n` is 1 mod 3) — and an all-zero
frame round-trips to an exactly all-zero frame. -/
theorem transcode_roundtrip_length_and_silence (xs : List Int) (n : Nat) :
    (downlinkToCaller xs).length = (xs.length + 2) / 3 ∧
    (uplinkFromCaller (downlinkToCaller xs)).length
      = 3 * ((xs.length + 2) / 3) - 2 ∧
    uplinkFromCaller (downlinkToCaller (List.replicate n 0))
      = List.replicate (3 * ((n + 2) / 3) - 2) 0 := by
  have hdl : ∀ ys : List Int,
      (downlinkToCaller ys).length = (ys.length + 2) / 3 := by
    intro ys
    rw [downlinkToCaller, List.length_map, ratecv_down_length]
  have hul : ∀ bs : List Nat,
      (uplinkFromCaller bs).length = 3 * bs.length - 2 := by
    intro bs
    rw [uplinkFromCaller, ratecv_up_length, List.length_map]
  refine ⟨hdl xs, ?_, ?_⟩
  · rw [hul, hdl]
  · have hm0 : ratecv 24000 8000 (List.replicate n 0)
        = List.replicate ((n + 2) / 3) 0 := by
      rw [List.eq_replicate_iff]
      refine ⟨by rw [ratecv_down_length, List.length_replicate], ?_⟩
      intro b hb
      rw [ratecv_down_eq] at hb
      exact ratecvGo_zero_mem 3 1 n (-1) b hb
    have hz255 : lin2ulaw16 0 = 255 := by decide
    have hdz : downlinkToCaller (List.replicate n 0)
        = List.replicate ((n + 2) / 3) 255 := by
      rw [downlinkToCaller, hm0, List.map_replicate, hz255]
    have h255z : st_ulaw2linear16 255 = 0 := by decide
    rw [hdz, uplinkFromCaller, List.map_replicate, h255z]
    rw [List.eq_replicate_iff]
    constructor
    · rw [ratecv_up_length, List.length_replicate]
    · intro b hb
      rw [ratecv_up_eq] at hb
      exact ratecvGo_zero_mem 1 3 _ (-3) b hb
